import Mathlib

/-
Verification of the focus-peaking frame processor (src/services/focusPeaking.ts).

The repository contains three historical iterations of the processor in one
file.  The canonical pipeline (the one the steps of the specification describe:
4-neighbor gradient, threshold, edge-strength shading, alpha output) is the
first variant, whose processFrame

  1. on disabled: clears the canvas and returns;
  2. resizes the canvas to the video dimensions;
  3. builds a Uint8Array grayscale buffer with
     Math.round(r * 0.299 + g * 0.587 + b * 0.114);
  4. for interior pixels (1 <= x < width-1, 1 <= y < height-1) computes
     gx = |right - left|, gy = |bottom - top|,
     edgeResponse = sqrt(gx^2 + gy^2);
  5. if edgeResponse > threshold writes the highlight color with
     alpha = Math.min(255, Math.min(255, (edgeResponse - threshold) * 2)
                             * intensity)
     into a freshly zero-initialised ImageData (a Uint8ClampedArray, whose
     stores clamp to [0, 255] and round to the nearest integer, ties to
     even), and finally putImageData replaces the canvas contents.

The synchronous-fallback helpers of the third variant (getGrayscale, and a
hexToRgb whose fallback color differs) are embedded separately under the
SyncFallback namespace because two claims cite them.

JavaScript numbers are idealised as real numbers; the integer-valued parts
of the pipeline (luminance, gradients, hex parsing) are kept executable.
-/

namespace FocusPeaking

/-- One RGBA pixel as delivered by getImageData: four 8-bit channels. -/
structure Pix where
  r : ℕ
  g : ℕ
  b : ℕ
  a : ℕ
deriving DecidableEq

/-- A rectangular RGBA raster: a video frame, a canvas or an ImageData. -/
structure Image where
  width : ℕ
  height : ℕ
  pixel : ℕ → ℕ → Pix

/-- An RGB triple as returned by hexToRgb. -/
structure RGB where
  r : ℕ
  g : ℕ
  b : ℕ
deriving DecidableEq

/-- A pixel is valid when all four channels are 8-bit values. -/
def Pix.valid (p : Pix) : Prop :=
  p.r ≤ 255 ∧ p.g ≤ 255 ∧ p.b ≤ 255 ∧ p.a ≤ 255

/-- JavaScript Math.round: round half toward positive infinity. -/
def jsRound (x : ℚ) : ℤ := Int.floor (x + 1/2)

/-- The luminance weighted sum exactly as the grayscale loop forms it:
data[idx] * 0.299 + data[idx + 1] * 0.587 + data[idx + 2] * 0.114. -/
def weightedSum (p : Pix) : ℚ :=
  (p.r : ℚ) * 0.299 + (p.g : ℚ) * 0.587 + (p.b : ℚ) * 0.114

/-- The value stored into the Uint8Array grayscale buffer:
Math.round of the weighted sum, stored modulo 2^8. -/
def luminance (p : Pix) : ℕ :=
  (jsRound (weightedSum p)).toNat % 256

/-- grayscale[y * width + x] of the first processFrame variant. -/
def grayscale (f : Image) (x y : ℕ) : ℕ := luminance (f.pixel x y)

/-- gx = Math.abs(right - left) on the grayscale buffer. -/
def gxAt (f : Image) (x y : ℕ) : ℕ :=
  ((grayscale f (x + 1) y : ℤ) - (grayscale f (x - 1) y : ℤ)).natAbs

/-- gy = Math.abs(bottom - top) on the grayscale buffer. -/
def gyAt (f : Image) (x y : ℕ) : ℕ :=
  ((grayscale f x (y + 1) : ℤ) - (grayscale f x (y - 1) : ℤ)).natAbs

/-- gx*gx + gy*gy, the executable core of the edge response. -/
def edgeSq (f : Image) (x y : ℕ) : ℕ := gxAt f x y ^ 2 + gyAt f x y ^ 2

/-- edgeResponse = Math.sqrt(gx*gx + gy*gy). -/
noncomputable def edgeResponse (f : Image) (x y : ℕ) : ℝ :=
  Real.sqrt (edgeSq f x y)

/-- Character class of the regex [a-f\d] under the /i flag. -/
def isHexDigit (c : Char) : Bool :=
  c.isDigit || ('a' ≤ c && c ≤ 'f') || ('A' ≤ c && c ≤ 'F')

/-- Numeric value of one hexadecimal digit, as parseInt(-, 16) assigns it. -/
def hexVal (c : Char) : ℕ :=
  if c.isDigit then c.toNat - 48
  else if 'a' ≤ c && c ≤ 'f' then c.toNat - 87
  else c.toNat - 55

/-- The optional leading "#" consumed by the regex ^#?...$. -/
def stripHash (cs : List Char) : List Char :=
  match cs with
  | c :: rest => if c = '#' then rest else c :: rest
  | [] => []

/-- parseInt of a two-hex-digit capture group. -/
def hexPair (hi lo : Char) : ℕ := 16 * hexVal hi + hexVal lo

/-- Common body of the three hexToRgb variants, which differ only in the
default color returned when /^#?([a-f\d]{2})([a-f\d]{2})([a-f\d]{2})$/i
fails to match: three two-digit capture groups, each fed to parseInt. -/
def hexToRgbAux (dflt : RGB) : List Char → RGB
  | [c1, c2, c3, c4, c5, c6] =>
    if isHexDigit c1 && isHexDigit c2 && isHexDigit c3 &&
       isHexDigit c4 && isHexDigit c5 && isHexDigit c6 then
      ⟨hexPair c1 c2, hexPair c3 c4, hexPair c5 c6⟩
    else dflt
  | _ => dflt

/-- hexToRgb of the first (outline-mode) variant: default red (255, 0, 0). -/
def hexToRgb (hex : String) : RGB :=
  hexToRgbAux ⟨255, 0, 0⟩ (stripHash hex.toList)

namespace SyncFallback

/-- hexToRgb of the third variant (used by processSynchronously):
identical regex, but the parse-failure default is (255, 74, 74). -/
def hexToRgb (hex : String) : RGB :=
  hexToRgbAux ⟨255, 74, 74⟩ (stripHash hex.toList)

/-- getGrayscale of the third variant: the weighted sum
0.299 * data[idx] + 0.587 * data[idx + 1] + 0.114 * data[idx + 2],
returned without rounding. -/
def getGrayscale (p : Pix) : ℚ :=
  0.299 * (p.r : ℚ) + 0.587 * (p.g : ℚ) + 0.114 * (p.b : ℚ)

end SyncFallback

/-- Specification-side form of the color strings the regex accepts: six
hexadecimal digits, optionally preceded by a single "#" character. -/
def sixHexForm (s : String) : Bool :=
  (s.toList.length == 6 && s.toList.all isHexDigit) ||
  (match s.toList with
   | '#' :: rest => rest.length == 6 && rest.all isHexDigit
   | _ => false)

/-- Specification-side byte values of a six-hex-digit string. -/
def bytesOf : List Char → RGB
  | [c1, c2, c3, c4, c5, c6] =>
    ⟨16 * hexVal c1 + hexVal c2, 16 * hexVal c3 + hexVal c4,
     16 * hexVal c5 + hexVal c6⟩
  | _ => ⟨0, 0, 0⟩

/-- Specification-side parsed components of a color string. -/
def sixHexBytes (s : String) : RGB :=
  match s.toList with
  | '#' :: rest => bytesOf rest
  | cs => bytesOf cs

lemma hexToRgbAux_spec (dflt : RGB) (cs : List Char) :
    hexToRgbAux dflt cs =
      if (cs.length == 6 && cs.all isHexDigit) = true then bytesOf cs
      else dflt := by
  match cs with
  | [] => simp [hexToRgbAux]
  | [c1] => simp [hexToRgbAux]
  | [c1, c2] => simp [hexToRgbAux]
  | [c1, c2, c3] => simp [hexToRgbAux]
  | [c1, c2, c3, c4] => simp [hexToRgbAux]
  | [c1, c2, c3, c4, c5] => simp [hexToRgbAux]
  | [c1, c2, c3, c4, c5, c6] =>
    simp [hexToRgbAux, bytesOf, hexPair, Bool.and_assoc]
  | c1 :: c2 :: c3 :: c4 :: c5 :: c6 :: c7 :: rest =>
    simp [hexToRgbAux]

lemma isHexDigit_hash : isHexDigit '#' = false := by decide

lemma hexParse_spec (dflt : RGB) (s : String) :
    hexToRgbAux dflt (stripHash s.toList) =
      if sixHexForm s = true then sixHexBytes s else dflt := by
  unfold sixHexForm sixHexBytes
  rcases hcs : s.toList with _ | ⟨c, rest⟩
  · simp [stripHash, hexToRgbAux]
  · by_cases hc : c = '#'
    · subst hc
      simp only [stripHash, if_pos rfl]
      rw [hexToRgbAux_spec]
      simp [isHexDigit_hash]
    · have hstrip : stripHash (c :: rest) = c :: rest := by
        simp [stripHash, hc]
      rw [hstrip, hexToRgbAux_spec]
      have hmatch :
          (match c :: rest with
           | '#' :: rest => rest.length == 6 && rest.all isHexDigit
           | _ => false) = false := by
        split
        · rename_i heq
          injection heq with h1 h2
          exact absurd h1 hc
        · rfl
      rw [hmatch]
      have hbytes :
          (match c :: rest with
           | '#' :: rest => bytesOf rest
           | cs => bytesOf cs) = bytesOf (c :: rest) := by
        split
        · rename_i heq
          injection heq with h1 h2
          exact absurd h1 hc
        · rfl
      rw [hbytes]
      simp

/-- The value an assignment stores into a Uint8ClampedArray slot
(ECMAScript ToUint8Clamp): clamp to [0, 255], then round to the nearest
integer, ties to even. -/
noncomputable def toUint8Clamp (x : ℝ) : ℕ :=
  if x ≤ 0 then 0
  else if 255 ≤ x then 255
  else if (Int.floor x : ℝ) + 1/2 < x then (Int.floor x).toNat + 1
  else if x < (Int.floor x : ℝ) + 1/2 then (Int.floor x).toNat
  else if Int.floor x % 2 = 0 then (Int.floor x).toNat
  else (Int.floor x).toNat + 1

/-- clamp(0, 255, x), the clamp the specification describes. -/
noncomputable def clamp255 (x : ℝ) : ℝ := max 0 (min 255 x)

/-- One pixel of the outline ImageData built by the first processFrame
variant.  ImageData starts fully zeroed; the loop runs over interior
pixels only and writes the highlight color with

  edgeStrength = Math.min(255, (edgeResponse - threshold) * 2)
  alpha        = Math.min(255, edgeStrength * intensity)

whenever edgeResponse > threshold, the store passing through the
Uint8ClampedArray clamp/round. -/
noncomputable def outlinePixel (video : Image) (rgb : RGB)
    (threshold intensity : ℝ) (x y : ℕ) : Pix :=
  if 1 ≤ x ∧ x + 1 < video.width ∧ 1 ≤ y ∧ y + 1 < video.height ∧
     threshold < edgeResponse video x y then
    ⟨rgb.r, rgb.g, rgb.b,
     toUint8Clamp (min 255 (min 255 ((edgeResponse video x y - threshold) * 2)
       * intensity))⟩
  else ⟨0, 0, 0, 0⟩

/-- ctx.clearRect(0, 0, width, height): every pixel becomes transparent
black; the canvas dimensions are unchanged. -/
def clearCanvas (c : Image) : Image :=
  ⟨c.width, c.height, fun _ _ => ⟨0, 0, 0, 0⟩⟩

/-- The first processFrame variant as a function from the video frame and
the previous canvas contents to the new canvas contents.  Disabled: the
canvas is cleared and nothing else happens.  Enabled: the canvas is
resized to the video dimensions and putImageData replaces its contents
with the outline ImageData.  The mode parameter is accepted but unused,
as in the source. -/
noncomputable def processFrame (video canvas : Image) (color : String)
    (threshold : ℝ) (enabled : Bool) (intensity : ℝ) (mode : String) :
    Image :=
  if enabled = false then clearCanvas canvas
  else
    ⟨video.width, video.height, fun x y =>
      outlinePixel video (hexToRgb color) threshold intensity x y⟩

/-- Number of output pixels with positive alpha for an enabled run. -/
noncomputable def alphaCount (video canvas : Image) (color : String)
    (threshold intensity : ℝ) (mode : String) : ℕ :=
  Finset.card (Finset.filter
    (fun p : ℕ × ℕ =>
      0 < ((processFrame video canvas color threshold true intensity
        mode).pixel p.1 p.2).a)
    (Finset.range video.width ×ˢ Finset.range video.height))

lemma processFrame_enabled_pixel (video canvas : Image) (color : String)
    (threshold intensity : ℝ) (mode : String) (x y : ℕ) :
    (processFrame video canvas color threshold true intensity mode).pixel
      x y = outlinePixel video (hexToRgb color) threshold intensity x y :=
  rfl

lemma toUint8Clamp_eq_zero (x : ℝ) (h : x ≤ 1/2) : toUint8Clamp x = 0 := by
  unfold toUint8Clamp
  by_cases h0 : x ≤ 0
  · rw [if_pos h0]
  · rw [if_neg h0]
    push_neg at h0
    have h255 : ¬ (255 : ℝ) ≤ x := by linarith
    rw [if_neg h255]
    have hfl : Int.floor x = 0 := by
      rw [Int.floor_eq_zero_iff, Set.mem_Ico]
      constructor <;> linarith
    rw [hfl]
    have h3 : ¬ ((0 : ℤ) : ℝ) + 1/2 < x := by push_cast; linarith
    rw [if_neg h3]
    by_cases h4 : x < ((0 : ℤ) : ℝ) + 1/2
    · rw [if_pos h4]; rfl
    · rw [if_neg h4]
      norm_num

lemma toUint8Clamp_pos (x : ℝ) (h : 1/2 < x) : 0 < toUint8Clamp x := by
  unfold toUint8Clamp
  have h0 : ¬ x ≤ 0 := by linarith
  rw [if_neg h0]
  by_cases h255 : (255 : ℝ) ≤ x
  · rw [if_pos h255]; norm_num
  · rw [if_neg h255]
    push_neg at h255
    by_cases h3 : (Int.floor x : ℝ) + 1/2 < x
    · rw [if_pos h3]
      exact Nat.succ_pos _
    · rw [if_neg h3]
      push_neg at h3
      have hfl1 : 1 ≤ Int.floor x := by
        have hgt : (0 : ℝ) < (Int.floor x : ℝ) := by linarith
        have : (0 : ℤ) < Int.floor x := by exact_mod_cast hgt
        omega
      have hpos : 0 < (Int.floor x).toNat := by omega
      by_cases h4 : x < (Int.floor x : ℝ) + 1/2
      · rw [if_pos h4]; exact hpos
      · rw [if_neg h4]
        by_cases h5 : Int.floor x % 2 = 0
        · rw [if_pos h5]; exact hpos
        · rw [if_neg h5]; exact Nat.succ_pos _

lemma toUint8Clamp_natCast (n : ℕ) (h : n ≤ 255) :
    toUint8Clamp (n : ℝ) = n := by
  unfold toUint8Clamp
  rcases Nat.eq_zero_or_pos n with h0 | h0
  · subst h0
    simp
  · have hn0 : ¬ (n : ℝ) ≤ 0 := by
      push_neg
      exact_mod_cast h0
    rw [if_neg hn0]
    have hfl : Int.floor ((n : ℝ)) = (n : ℤ) := Int.floor_natCast n
    by_cases h255 : (255 : ℝ) ≤ (n : ℝ)
    · have h1 : (255 : ℕ) ≤ n := by exact_mod_cast h255
      have h2 : n = 255 := le_antisymm h h1
      rw [if_pos h255, h2]
    · rw [if_neg h255, hfl]
      have h3 : ¬ ((n : ℤ) : ℝ) + 1/2 < (n : ℝ) := by push_cast; linarith
      rw [if_neg h3]
      have h4 : (n : ℝ) < ((n : ℤ) : ℝ) + 1/2 := by push_cast; linarith
      rw [if_pos h4]
      simp

lemma toUint8Clamp_max_zero (x : ℝ) :
    toUint8Clamp (max 0 x) = toUint8Clamp x := by
  rcases le_total x 0 with h | h
  · rw [max_eq_left h]
    rw [toUint8Clamp_eq_zero 0 (by norm_num), toUint8Clamp_eq_zero x (by linarith)]
  · rw [max_eq_right h]

/-- A solid pixel with equal channels; its luminance is the channel value. -/
def testPix (v : ℕ) : Pix := ⟨v, v, v, 255⟩

/-- A 3 x 3 frame whose center pixel sees right-neighbor luminance 3 and
bottom-neighbor luminance 4, so gx = 3, gy = 4 and edgeResponse = 5. -/
def testFrame : Image :=
  ⟨3, 3, fun x y =>
    if x = 2 ∧ y = 1 then testPix 3
    else if x = 1 ∧ y = 2 then testPix 4
    else testPix 0⟩

lemma testPix_valid (v : ℕ) (h : v ≤ 255) : (testPix v).valid :=
  ⟨h, h, h, le_refl 255⟩

lemma luminance_testPix (v : ℕ) (h : v ≤ 255) : luminance (testPix v) = v := by
  unfold luminance weightedSum testPix jsRound
  have hsum : ((v : ℕ) : ℚ) * 0.299 + ((v : ℕ) : ℚ) * 0.587 +
      ((v : ℕ) : ℚ) * 0.114 = (v : ℚ) := by ring
  simp only
  rw [hsum]
  have hfl : Int.floor ((v : ℚ) + 1/2) = (v : ℤ) := by
    rw [Int.floor_eq_iff]
    constructor
    · push_cast; linarith
    · push_cast; linarith
  rw [hfl]
  simp [Nat.mod_eq_of_lt (lt_of_le_of_lt h (by norm_num : (255 : ℕ) < 256))]

lemma grayscale_testFrame_right : grayscale testFrame 2 1 = 3 := by
  rw [grayscale, show testFrame.pixel 2 1 = testPix 3 by simp [testFrame]]
  exact luminance_testPix 3 (by norm_num)

lemma grayscale_testFrame_left : grayscale testFrame 0 1 = 0 := by
  rw [grayscale, show testFrame.pixel 0 1 = testPix 0 by simp [testFrame]]
  exact luminance_testPix 0 (by norm_num)

lemma grayscale_testFrame_top : grayscale testFrame 1 0 = 0 := by
  rw [grayscale, show testFrame.pixel 1 0 = testPix 0 by simp [testFrame]]
  exact luminance_testPix 0 (by norm_num)

lemma grayscale_testFrame_bottom : grayscale testFrame 1 2 = 4 := by
  rw [grayscale, show testFrame.pixel 1 2 = testPix 4 by simp [testFrame]]
  exact luminance_testPix 4 (by norm_num)

lemma edgeSq_testFrame : edgeSq testFrame 1 1 = 25 := by
  unfold edgeSq gxAt gyAt
  rw [show (1 : ℕ) + 1 = 2 from rfl, show (1 : ℕ) - 1 = 0 from rfl]
  rw [grayscale_testFrame_right, grayscale_testFrame_left,
    grayscale_testFrame_top, grayscale_testFrame_bottom]
  decide

lemma edgeResponse_testFrame : edgeResponse testFrame 1 1 = 5 := by
  unfold edgeResponse
  rw [edgeSq_testFrame]
  rw [show ((25 : ℕ) : ℝ) = (5 : ℝ) ^ 2 by norm_num]
  exact Real.sqrt_sq (by norm_num)

/-- Evaluation of the enabled pipeline at the center of the test frame for
any threshold below the edge response 5. -/
lemma processFrame_testFrame_center (canvas : Image) (color : String)
    (thr intens : ℝ) (mode : String) (h : thr < 5) :
    (processFrame testFrame canvas color thr true intens mode).pixel 1 1 =
      ⟨(hexToRgb color).r, (hexToRgb color).g, (hexToRgb color).b,
       toUint8Clamp (min 255 (min 255 ((5 - thr) * 2) * intens))⟩ := by
  rw [processFrame_enabled_pixel, outlinePixel]
  rw [if_pos]
  · rw [edgeResponse_testFrame]
  · refine ⟨le_refl 1, by decide, le_refl 1, by decide, ?_⟩
    rw [edgeResponse_testFrame]
    exact h

/-- C2: with the 4-neighbor kernel, the edge response at every interior
pixel equals sqrt(gx^2 + gy^2) where gx and gy are the absolute
differences of the luminance values of the horizontal and vertical
neighbors. -/
theorem C2_four_neighbor_gradient (f : Image) (x y : ℕ)
    (hx : 1 ≤ x) (hx2 : x + 1 < f.width) (hy : 1 ≤ y)
    (hy2 : y + 1 < f.height) :
    edgeResponse f x y =
      Real.sqrt
        ((((luminance (f.pixel (x + 1) y) : ℤ) -
           (luminance (f.pixel (x - 1) y) : ℤ)).natAbs : ℝ) ^ 2 +
         (((luminance (f.pixel x (y + 1)) : ℤ) -
           (luminance (f.pixel x (y - 1)) : ℤ)).natAbs : ℝ) ^ 2) := by
  unfold edgeResponse edgeSq gxAt gyAt grayscale
  congr 1
  push_cast
  ring

/-- Witness for C2 at the center of the 3 x 3 test frame. -/
theorem C2_gradient_witness :
    (1 : ℕ) ≤ 1 ∧ 1 + 1 < testFrame.width ∧ 1 + 1 < testFrame.height ∧
    edgeResponse testFrame 1 1 =
      Real.sqrt
        ((((luminance (testFrame.pixel (1 + 1) 1) : ℤ) -
           (luminance (testFrame.pixel (1 - 1) 1) : ℤ)).natAbs : ℝ) ^ 2 +
         (((luminance (testFrame.pixel 1 (1 + 1)) : ℤ) -
           (luminance (testFrame.pixel 1 (1 - 1)) : ℤ)).natAbs : ℝ) ^ 2) :=
  ⟨le_refl 1, by decide, by decide,
   C2_four_neighbor_gradient testFrame 1 1 (le_refl 1) (by decide)
     (le_refl 1) (by decide)⟩

/-- C4: for every enabled run, every pixel within the kernel radius (one
pixel) of the image boundary has output alpha 0, regardless of frame
content, threshold or intensity. -/
theorem C4_border_alpha_zero (video canvas : Image) (color : String)
    (thr intens : ℝ) (mode : String) (x y : ℕ)
    (h : x = 0 ∨ video.width ≤ x + 1 ∨ y = 0 ∨ video.height ≤ y + 1) :
    ((processFrame video canvas color thr true intens mode).pixel x y).a
      = 0 := by
  rw [processFrame_enabled_pixel, outlinePixel, if_neg]
  intro hc
  obtain ⟨h1, h2, h3, h4, _⟩ := hc
  rcases h with h | h | h | h <;> omega

/-- Witness for C4 at a left-border pixel of the test frame. -/
theorem C4_border_witness :
    ((processFrame testFrame testFrame "#ff0000" 30 true 0.8
        "outline").pixel 0 1).a = 0 :=
  C4_border_alpha_zero testFrame testFrame "#ff0000" 30 0.8 "outline" 0 1
    (Or.inl rfl)

/-- C5: with enabled = false, every pixel of the output has alpha 0; the
disabled branch of processFrame only clears the canvas. -/
theorem C5_disabled_transparent (video canvas : Image) (color : String)
    (thr intens : ℝ) (mode : String) (enabled : Bool)
    (h : enabled = false) (x y : ℕ) :
    ((processFrame video canvas color thr enabled intens mode).pixel x y).a
      = 0 := by
  subst h
  rfl

/-- Witness for C5 on the test frame. -/
theorem C5_disabled_witness :
    ((processFrame testFrame testFrame "#ff0000" 30 false 0.8
        "outline").pixel 5 7).a = 0 :=
  C5_disabled_transparent testFrame testFrame "#ff0000" 30 0.8 "outline"
    false rfl 5 7

/-- C7: two consecutive invocations of processFrame with the identical
frame and configuration produce bit-identical output images; the module
state (lastVideoWidth, lastVideoHeight) is declared but never read by
this variant, and the second call sees the canvas produced by the first call. -/
theorem C7_reinvocation_identical (video canvas : Image) (color : String)
    (thr : ℝ) (enabled : Bool) (intens : ℝ) (mode : String) :
    processFrame video
        (processFrame video canvas color thr enabled intens mode)
        color thr enabled intens mode =
      processFrame video canvas color thr enabled intens mode := by
  cases enabled
  · rfl
  · rfl

lemma outlinePixel_alpha_mono (f : Image) (rgb : RGB)
    (t1 t2 intens : ℝ) (x y : ℕ) (h : t1 ≤ t2)
    (hpos : 0 < (outlinePixel f rgb t2 intens x y).a) :
    0 < (outlinePixel f rgb t1 intens x y).a := by
  unfold outlinePixel at hpos ⊢
  by_cases hc : 1 ≤ x ∧ x + 1 < f.width ∧ 1 ≤ y ∧ y + 1 < f.height ∧
      t2 < edgeResponse f x y
  · obtain ⟨h1, h2, h3, h4, h5⟩ := hc
    rw [if_pos ⟨h1, h2, h3, h4, h5⟩] at hpos
    rw [if_pos ⟨h1, h2, h3, h4, lt_of_le_of_lt h h5⟩]
    change 0 < toUint8Clamp
      (min 255 (min 255 ((edgeResponse f x y - t2) * 2) * intens)) at hpos
    change 0 < toUint8Clamp
      (min 255 (min 255 ((edgeResponse f x y - t1) * 2) * intens))
    set er := edgeResponse f x y with her
    have hx2 : 1/2 < min 255 (min 255 ((er - t2) * 2) * intens) := by
      by_contra hcon
      push_neg at hcon
      rw [toUint8Clamp_eq_zero _ hcon] at hpos
      exact lt_irrefl 0 hpos
    have hs2pos : (0 : ℝ) < min 255 ((er - t2) * 2) :=
      lt_min (by norm_num) (by nlinarith)
    have hprod : (0 : ℝ) < min 255 ((er - t2) * 2) * intens := by
      have hmr := min_le_right (255 : ℝ)
        (min 255 ((er - t2) * 2) * intens)
      linarith
    have hint : (0 : ℝ) < intens := by
      rcases mul_pos_iff.mp hprod with ⟨_, hi⟩ | ⟨hneg, _⟩
      · exact hi
      · linarith
    have hs12 : min 255 ((er - t2) * 2) ≤ min 255 ((er - t1) * 2) :=
      min_le_min le_rfl (by nlinarith)
    have hx12 : min 255 (min 255 ((er - t2) * 2) * intens) ≤
        min 255 (min 255 ((er - t1) * 2) * intens) :=
      min_le_min le_rfl
        (mul_le_mul_of_nonneg_right hs12 (le_of_lt hint))
    exact toUint8Clamp_pos _ (lt_of_lt_of_le hx2 hx12)
  · rw [if_neg hc] at hpos
    exact absurd hpos (by norm_num)

/-- C6: for a fixed frame and fixed intensity, raising the threshold never
increases the number of output pixels with positive alpha. -/
theorem C6_threshold_monotone (video canvas : Image) (color : String)
    (intens : ℝ) (mode : String) (t1 t2 : ℝ) (h : t1 ≤ t2) :
    alphaCount video canvas color t2 intens mode ≤
      alphaCount video canvas color t1 intens mode := by
  unfold alphaCount
  apply Finset.card_le_card
  intro p hp
  rw [Finset.mem_filter] at hp ⊢
  refine ⟨hp.1, ?_⟩
  have h2 := hp.2
  rw [processFrame_enabled_pixel] at h2 ⊢
  exact outlinePixel_alpha_mono video (hexToRgb color) t1 t2 intens
    p.1 p.2 h h2

/-- Witness for C6 on the test frame with thresholds 1 and 2. -/
theorem C6_monotone_witness :
    (1 : ℝ) ≤ 2 ∧
    alphaCount testFrame testFrame "#ff0000" 2 1 "outline" ≤
      alphaCount testFrame testFrame "#ff0000" 1 1 "outline" :=
  ⟨by norm_num,
   C6_threshold_monotone testFrame testFrame "#ff0000" 1 "outline" 1 2
     (by norm_num)⟩

/-- C1 (amended): for an enabled run, every interior pixel whose edge
response strictly exceeds the threshold carries the highlight color with
alpha equal to the Uint8ClampedArray quantization (clamp to [0, 255] and
round to nearest, ties to even) of
clamp(0, 255, clamp(0, 255, (magnitude - threshold) * 2) * intensity);
every other pixel has alpha 0. -/
theorem C1_edge_shading (video canvas : Image) (color : String)
    (thr intens : ℝ) (mode : String) :
    (∀ x y, 1 ≤ x → x + 1 < video.width → 1 ≤ y → y + 1 < video.height →
       thr < edgeResponse video x y →
       (processFrame video canvas color thr true intens mode).pixel x y =
         ⟨(hexToRgb color).r, (hexToRgb color).g, (hexToRgb color).b,
          toUint8Clamp (clamp255 (clamp255
            ((edgeResponse video x y - thr) * 2) * intens))⟩) ∧
    (∀ x y, ¬ (1 ≤ x ∧ x + 1 < video.width ∧ 1 ≤ y ∧
         y + 1 < video.height ∧ thr < edgeResponse video x y) →
       ((processFrame video canvas color thr true intens mode).pixel
         x y).a = 0) := by
  constructor
  · intro x y hx hx2 hy hy2 hedge
    rw [processFrame_enabled_pixel, outlinePixel,
      if_pos ⟨hx, hx2, hy, hy2, hedge⟩]
    have hinner : clamp255 ((edgeResponse video x y - thr) * 2) =
        min 255 ((edgeResponse video x y - thr) * 2) := by
      unfold clamp255
      apply max_eq_right
      apply le_min
      · norm_num
      · nlinarith
    rw [hinner]
    unfold clamp255
    rw [toUint8Clamp_max_zero]
  · intro x y hnot
    rw [processFrame_enabled_pixel, outlinePixel, if_neg hnot]

/-- Witness for C1 at the center of the test frame. -/
theorem C1_shading_witness :
    (0 : ℝ) < edgeResponse testFrame 1 1 ∧
    (processFrame testFrame testFrame "#00ff00" 0 true 1
        "outline").pixel 1 1 =
      ⟨(hexToRgb "#00ff00").r, (hexToRgb "#00ff00").g,
       (hexToRgb "#00ff00").b,
       toUint8Clamp (clamp255 (clamp255
         ((edgeResponse testFrame 1 1 - 0) * 2) * 1))⟩ :=
  ⟨by rw [edgeResponse_testFrame]; norm_num,
   (C1_edge_shading testFrame testFrame "#00ff00" 0 1 "outline").1 1 1
     (le_refl 1) (by decide) (le_refl 1) (by decide)
     (by rw [edgeResponse_testFrame]; norm_num)⟩

/-- Counterexample to C1 as stated: at the center of the test frame with
threshold 0 and intensity 1/100, the stored alpha is the 8-bit quantized
value 0, while the claimed real-valued formula gives 1/10. -/
theorem C1_quantization_cex :
    ((processFrame testFrame testFrame "#ff0000" 0 true (1/100)
        "outline").pixel 1 1).a = 0 ∧
    clamp255 (clamp255 ((edgeResponse testFrame 1 1 - 0) * 2) * (1/100)) =
      1/10 ∧
    ((0 : ℝ) ≠ 1/10) := by
  refine ⟨?_, ?_, by norm_num⟩
  · rw [processFrame_testFrame_center testFrame "#ff0000" 0 (1/100)
      "outline" (by norm_num)]
    show toUint8Clamp (min 255 (min 255 ((5 - 0) * 2) * (1/100))) = 0
    apply toUint8Clamp_eq_zero
    rw [show ((5 : ℝ) - 0) * 2 = 10 by norm_num,
      min_eq_right (by norm_num : (10 : ℝ) ≤ 255)]
    rw [show (10 : ℝ) * (1/100) = 1/10 by norm_num,
      min_eq_right (by norm_num : (1/10 : ℝ) ≤ 255)]
    norm_num
  · rw [edgeResponse_testFrame]
    unfold clamp255
    rw [show ((5 : ℝ) - 0) * 2 = 10 by norm_num,
      min_eq_right (by norm_num : (10 : ℝ) ≤ 255),
      max_eq_right (by norm_num : (0 : ℝ) ≤ 10)]
    rw [show (10 : ℝ) * (1/100) = 1/10 by norm_num,
      min_eq_right (by norm_num : (1/10 : ℝ) ≤ 255),
      max_eq_right (by norm_num : (0 : ℝ) ≤ 1/10)]

lemma outlinePixel_nonpos_intensity (f : Image) (rgb : RGB)
    (thr intens : ℝ) (h : intens ≤ 0) (x y : ℕ) :
    outlinePixel f rgb thr intens x y = outlinePixel f rgb thr 0 x y := by
  unfold outlinePixel
  by_cases hc : 1 ≤ x ∧ x + 1 < f.width ∧ 1 ≤ y ∧ y + 1 < f.height ∧
      thr < edgeResponse f x y
  · rw [if_pos hc, if_pos hc]
    obtain ⟨_, _, _, _, h5⟩ := hc
    have hz1 : toUint8Clamp
        (min 255 (min 255 ((edgeResponse f x y - thr) * 2) * intens))
        = 0 := by
      apply toUint8Clamp_eq_zero
      have hs : (0 : ℝ) < min 255 ((edgeResponse f x y - thr) * 2) :=
        lt_min (by norm_num) (by nlinarith)
      have hmul : min 255 ((edgeResponse f x y - thr) * 2) * intens ≤ 0 :=
        mul_nonpos_of_nonneg_of_nonpos (le_of_lt hs) h
      have hmr := min_le_right (255 : ℝ)
        (min 255 ((edgeResponse f x y - thr) * 2) * intens)
      linarith
    have hz2 : toUint8Clamp
        (min 255 (min 255 ((edgeResponse f x y - thr) * 2) * 0)) = 0 := by
      apply toUint8Clamp_eq_zero
      rw [mul_zero, min_eq_right (by norm_num : (0 : ℝ) ≤ 255)]
      norm_num
    rw [hz1, hz2]
  · rw [if_neg hc, if_neg hc]

/-- C9 (amended): processFrame is total for every intensity; a
non-positive intensity behaves exactly like intensity 0 (the stored alpha
clamps to 0); but an intensity above 1 is NOT clamped (the code computes
alpha = min(255, edgeStrength * intensity)), so the output may differ
from the intensity-1 output. -/
theorem C9_nonpositive_intensity (video canvas : Image) (color : String)
    (thr : ℝ) (enabled : Bool) (intens : ℝ) (mode : String)
    (h : intens ≤ 0) :
    processFrame video canvas color thr enabled intens mode =
      processFrame video canvas color thr enabled 0 mode := by
  cases enabled
  · rfl
  · show (⟨video.width, video.height, fun x y =>
      outlinePixel video (hexToRgb color) thr intens x y⟩ : Image) =
      ⟨video.width, video.height, fun x y =>
        outlinePixel video (hexToRgb color) thr 0 x y⟩
    congr 1
    funext x y
    exact outlinePixel_nonpos_intensity video (hexToRgb color) thr
      intens h x y

/-- Witness for C9: intensity -1 gives the same output as intensity 0. -/
theorem C9_intensity_witness :
    (-1 : ℝ) ≤ 0 ∧
    processFrame testFrame testFrame "#ff0000" 30 true (-1) "outline" =
      processFrame testFrame testFrame "#ff0000" 30 true 0 "outline" :=
  ⟨by norm_num,
   C9_nonpositive_intensity testFrame testFrame "#ff0000" 30 true (-1)
     "outline" (by norm_num)⟩

/-- Counterexample to C9 as stated: with edge strength 10 at the test
center of the test frame, intensity 2 stores alpha 20 while the clamped intensity 1
stores alpha 10, so intensity above 1 does not behave as intensity 1. -/
theorem C9_not_clamped_cex :
    ((processFrame testFrame testFrame "#ff0000" 0 true 2
        "outline").pixel 1 1).a = 20 ∧
    ((processFrame testFrame testFrame "#ff0000" 0 true 1
        "outline").pixel 1 1).a = 10 ∧
    (20 : ℕ) ≠ 10 := by
  refine ⟨?_, ?_, by norm_num⟩
  · rw [processFrame_testFrame_center testFrame "#ff0000" 0 2 "outline"
      (by norm_num)]
    show toUint8Clamp (min 255 (min 255 ((5 - 0) * 2) * 2)) = 20
    rw [show ((5 : ℝ) - 0) * 2 = 10 by norm_num,
      min_eq_right (by norm_num : (10 : ℝ) ≤ 255)]
    rw [show (10 : ℝ) * 2 = 20 by norm_num,
      min_eq_right (by norm_num : (20 : ℝ) ≤ 255)]
    rw [show (20 : ℝ) = ((20 : ℕ) : ℝ) by norm_num]
    exact toUint8Clamp_natCast 20 (by norm_num)
  · rw [processFrame_testFrame_center testFrame "#ff0000" 0 1 "outline"
      (by norm_num)]
    show toUint8Clamp (min 255 (min 255 ((5 - 0) * 2) * 1)) = 10
    rw [show ((5 : ℝ) - 0) * 2 = 10 by norm_num,
      min_eq_right (by norm_num : (10 : ℝ) ≤ 255)]
    rw [show (10 : ℝ) * 1 = 10 by norm_num,
      min_eq_right (by norm_num : (10 : ℝ) ≤ 255)]
    rw [show (10 : ℝ) = ((10 : ℕ) : ℝ) by norm_num]
    exact toUint8Clamp_natCast 10 (by norm_num)

/-- C3 (amended): the grayscale buffer of the main processFrame pipeline
stores round(0.299 R + 0.587 G + 0.114 B) for every valid pixel; the
synchronous-fallback helper getGrayscale of the third variant returns the
same weighted sum WITHOUT rounding. -/
theorem C3_luminance_rounding (f : Image) (x y : ℕ)
    (h : (f.pixel x y).valid) :
    ((grayscale f x y : ℤ) = jsRound (weightedSum (f.pixel x y))) ∧
    SyncFallback.getGrayscale (f.pixel x y) =
      weightedSum (f.pixel x y) := by
  obtain ⟨hr, hg, hb, _⟩ := h
  constructor
  · unfold grayscale luminance
    set w := weightedSum (f.pixel x y) with hw
    have hw0 : 0 ≤ w := by
      rw [hw]; unfold weightedSum
      positivity
    have hw255 : w ≤ 255 := by
      rw [hw]; unfold weightedSum
      have h1 : ((f.pixel x y).r : ℚ) ≤ 255 := by exact_mod_cast hr
      have h2 : ((f.pixel x y).g : ℚ) ≤ 255 := by exact_mod_cast hg
      have h3 : ((f.pixel x y).b : ℚ) ≤ 255 := by exact_mod_cast hb
      nlinarith
    have h0 : 0 ≤ jsRound w := by
      unfold jsRound
      apply Int.floor_nonneg.mpr
      linarith
    have h256 : jsRound w < 256 := by
      unfold jsRound
      rw [Int.floor_lt]
      push_cast
      linarith
    have hlt : (jsRound w).toNat < 256 := by omega
    rw [Nat.mod_eq_of_lt hlt, Int.toNat_of_nonneg h0]
  · unfold SyncFallback.getGrayscale weightedSum
    ring

/-- Witness for C3 at the center pixel of the test frame. -/
theorem C3_luminance_witness :
    (testFrame.pixel 1 1).valid ∧
    (((grayscale testFrame 1 1 : ℤ) =
        jsRound (weightedSum (testFrame.pixel 1 1))) ∧
     SyncFallback.getGrayscale (testFrame.pixel 1 1) =
       weightedSum (testFrame.pixel 1 1)) :=
  ⟨show (testPix 0).valid from testPix_valid 0 (by norm_num),
   C3_luminance_rounding testFrame 1 1
     (show (testPix 0).valid from testPix_valid 0 (by norm_num))⟩

/-- Counterexample to C3 as stated: the cited helper getGrayscale does
not round; on the pixel (1, 0, 0, 255) it returns 299/1000, while
round(0.299 * 1 + 0.587 * 0 + 0.114 * 0) is 0. -/
theorem C3_unrounded_cex :
    SyncFallback.getGrayscale ⟨1, 0, 0, 255⟩ = 299/1000 ∧
    ((jsRound (weightedSum ⟨1, 0, 0, 255⟩) : ℚ)) = 0 ∧
    (299/1000 : ℚ) ≠ 0 := by
  refine ⟨?_, ?_, by norm_num⟩
  · unfold SyncFallback.getGrayscale
    norm_num
  · have hws : weightedSum ⟨1, 0, 0, 255⟩ = 299/1000 := by
      unfold weightedSum
      norm_num
    rw [hws]
    unfold jsRound
    rw [show (299/1000 : ℚ) + 1/2 = 799/1000 by norm_num]
    have hfl : Int.floor ((799 : ℚ)/1000) = 0 := by
      rw [Int.floor_eq_zero_iff, Set.mem_Ico]
      norm_num
    rw [hfl]
    norm_num

/-- C8 (amended): a color string that the hex regex rejects never causes
an error; the outline-mode pipeline and its hexToRgb substitute red
(255, 0, 0), and every output pixel is either untouched or carries that
fallback color; the synchronous-fallback hexToRgb of the third variant,
however, substitutes (255, 74, 74). -/
theorem C8_invalid_color_fallback (s : String)
    (h : sixHexForm s = false) :
    hexToRgb s = ⟨255, 0, 0⟩ ∧
    SyncFallback.hexToRgb s = ⟨255, 74, 74⟩ ∧
    ∀ (video canvas : Image) (thr intens : ℝ) (mode : String) (x y : ℕ),
      (processFrame video canvas s thr true intens mode).pixel x y =
          ⟨0, 0, 0, 0⟩ ∨
        (((processFrame video canvas s thr true intens mode).pixel
            x y).r = 255 ∧
         ((processFrame video canvas s thr true intens mode).pixel
            x y).g = 0 ∧
         ((processFrame video canvas s thr true intens mode).pixel
            x y).b = 0) := by
  have h1 : hexToRgb s = ⟨255, 0, 0⟩ := by
    unfold hexToRgb
    rw [hexParse_spec, h]
    simp
  refine ⟨h1, ?_, ?_⟩
  · unfold SyncFallback.hexToRgb
    rw [hexParse_spec, h]
    simp
  · intro video canvas thr intens mode x y
    rw [processFrame_enabled_pixel, h1, outlinePixel]
    by_cases hc : 1 ≤ x ∧ x + 1 < video.width ∧ 1 ≤ y ∧
        y + 1 < video.height ∧ thr < edgeResponse video x y
    · rw [if_pos hc]
      right
      exact ⟨rfl, rfl, rfl⟩
    · rw [if_neg hc]
      left
      rfl

/-- Witness for C8 on the invalid string "not-a-color". -/
theorem C8_fallback_witness :
    sixHexForm "not-a-color" = false ∧
    hexToRgb "not-a-color" = ⟨255, 0, 0⟩ :=
  ⟨by decide, (C8_invalid_color_fallback "not-a-color" (by decide)).1⟩

/-- Counterexample to C8 as stated: the cited hexToRgb of the third
variant (used by processSynchronously) falls back to (255, 74, 74), not
to the documented red (255, 0, 0). -/
theorem C8_sync_fallback_cex :
    SyncFallback.hexToRgb "not-a-color" = ⟨255, 74, 74⟩ ∧
    (⟨255, 74, 74⟩ : RGB) ≠ ⟨255, 0, 0⟩ := by
  refine ⟨?_, by decide⟩
  decide

/-- C10: hexToRgb accepts exactly the strings of six hexadecimal digits,
optionally preceded by a single hash, case-insensitively, returning the
three parsed byte components, and returns the fallback (255, 0, 0) on
every other string, including the 3-digit shorthand. -/
theorem C10_hexToRgb_characterization :
    (∀ s : String, hexToRgb s =
      if sixHexForm s = true then sixHexBytes s else ⟨255, 0, 0⟩) ∧
    hexToRgb "#FF0000" = ⟨255, 0, 0⟩ ∧
    hexToRgb "ff0000" = ⟨255, 0, 0⟩ ∧
    hexToRgb "FF0000" = ⟨255, 0, 0⟩ ∧
    sixHexForm "#F00" = false ∧
    hexToRgb "#F00" = ⟨255, 0, 0⟩ ∧
    hexToRgb "#12aBcD" = ⟨18, 171, 205⟩ := by
  refine ⟨fun s => hexParse_spec ⟨255, 0, 0⟩ s, ?_, ?_, ?_, ?_, ?_, ?_⟩
    <;> decide

end FocusPeaking
